import Mathlib

/-!
Verification development for the goloquent statement builder.

The definitions below are a shallow embedding of the Go sources under
`src/` (mainly `builder.go`, `db.go`, `statement.go` and the mysql dialect
file).  Pure string-building functions become Lean functions over `String`;
fallible compilation steps return `Except`; SQL argument lists are explicit
`List Val` values.  Definitions whose Go source is not part of the provided
tree (the entity/key/query files) are modelled from the specification and
are marked as such in their doc comments.
-/

namespace Goloquent

/-- Placeholder marker used by the builder, the Go constant `variable = "?"`. -/
def qMark : String := "?"

/-- Reserved physical primary-key column, the Go constant `pkColumn`. -/
def pkColumn : String := "$Key"

/-- Reserved soft-delete timestamp column, the Go constant `softDeleteColumn`. -/
def softDeleteColumn : String := "$Deleted"

/-- Modelled from the spec: the logical key field name exposed by the query
API (`keyFieldName`, declared in the entity file which is not under `src/`);
a key-typed field folds to the reserved primary-key column. -/
def keyFieldName : String := "__key__"

/-- Modelled from the spec: a hierarchical key, carrying its canonical
delimited string form (spec 4.1, the key codec is not under `src/`) and
whether the final segment still lacks an identifier (`Incomplete`). -/
structure Key where
  str : String
  incomplete : Bool
deriving DecidableEq, Repr

/-- Modelled from the spec: `stringPk` (key codec, not under `src/`) renders
a key to the canonical delimited string stored in the primary-key column. -/
def stringPk (k : Key) : String := k.str

/-- Modelled from the spec: `stringifyKey` (key codec, not under `src/`)
renders the key path string used inside ancestor LIKE patterns. -/
def stringifyKey (k : Key) : String := k.str

/-- A runtime value carried by a filter or emitted as a statement argument:
Go's `interface{}` restricted to the shapes the builder inspects (nil,
number, string, key, or a flat list of such values; deeper nesting is never
produced by the query API). -/
inductive Val where
  | vnull
  | vint (n : Int)
  | vstr (s : String)
  | vkey (k : Key)
  | vlist (xs : List Val)

/-- Filter operators, the exported Go constants of the same names.  The
JSON-scoped operators are outside the scope of this development, so the
`IsJSON` branch of `buildWhere` is never taken here. -/
inductive Operator where
  | Equal | EqualTo | NotEqual
  | GreaterThan | GreaterEqual | LessThan | LessEqual
  | AnyLike | Like | NotLike
  | In | NotIn
deriving DecidableEq, Repr

/-- One query filter: field name, operator and value (Go struct `Filter`). -/
structure Filter where
  field : String
  operator : Operator
  value : Val

/-- Modelled from the spec: `Filter.Interface` (query file, not under
`src/`) yields the filter's value for compilation. -/
def Filter.Interface (f : Filter) : Except String Val := .ok f.value

/-- Sort direction, the Go constants `ascending` / `descending`. -/
inductive Direction where
  | ascending | descending
deriving DecidableEq, Repr

/-- One ORDER BY entry (Go struct `order`). -/
structure Order where
  field : String
  direction : Direction

/-- One ancestor constraint: either a single ancestor or a disjunctive
group (Go struct stored in `scope.ancestors`). -/
structure Ancestor where
  isGroup : Bool
  data : List Key

/-- Select lock mode; zero value means no lock (Go constants `ReadLock`,
`WriteLock`). -/
inductive LockMode where
  | NoLock | ReadLock | WriteLock
deriving DecidableEq, Repr

/-- The query descriptor (Go struct `scope`), with exactly the fields the
builder reads. -/
structure scope where
  table : String
  projection : List String
  distinctOn : List String
  omits : List String
  filters : List Filter
  ancestors : List Ancestor
  orders : List Order
  limit : Int
  offset : Int
  lockMode : LockMode
  noScope : Bool

/-- Reflective view over a model (Go struct `entity`): resolved table name,
whether a soft-delete column is declared, and the ordered mutation column
list.  Modelled from the spec: the entity file is not under `src/`; per
spec 3 the column list excludes the primary-key column. -/
structure entity where
  name : String
  hasSoftDelete : Bool
  columns : List String

/-- The mysql dialect's identifier quoting (`Quote` in the mysql file). -/
def Quote (n : String) : String := "`" ++ n ++ "`"

/-- Modelled from the spec: `GetTable` (base dialect, not under `src/`)
renders the table identifier in quoted form. -/
def GetTable (t : String) : String := Quote t

/-- The mysql dialect's conflict-resolution clause (`OnConflictUpdate`):
`ON DUPLICATE KEY UPDATE c=VALUES(c),...`; the Go code writes a trailing
comma per column and truncates the last one, equal to an intercalation for
the non-empty column lists it is called with. -/
def OnConflictUpdate (_table : String) (cols : List String) : String :=
  "ON DUPLICATE KEY UPDATE " ++
    String.intercalate "," (cols.map (fun c => Quote c ++ "=VALUES(" ++ Quote c ++ ")"))

/-- Character class of the first regex segment in `quoteIfNecessary`:
dollar, ASCII letter or digit. -/
def headChar (c : Char) : Bool := c = '$' || c.isAlpha || c.isDigit

/-- Character class of the dot-separated tail segments: ASCII letter or
digit. -/
def tailChar (c : Char) : Bool := c.isAlpha || c.isDigit

/-- The builder's `quoteIfNecessary`: quote the identifier when it matches
the anchored regex over dollar/alphanumeric segments joined by dots. -/
def quoteIfNecessary (v : String) : String :=
  let ok := match v.splitOn "." with
    | [] => false
    | h :: t =>
        (decide (h ≠ "") && h.all headChar) &&
          t.all (fun s => decide (s ≠ "") && s.all tailChar)
  if ok then Quote v else v

/-- Conversion of a scalar primary-key filter value to its string form (the
non-list cases of `interfaceToKeyString`). -/
def keyScalarToString : Val → Except String Val
  | .vnull => .ok .vnull
  | .vkey k => .ok (.vstr (stringPk k))
  | .vstr s => .ok (.vstr s)
  | _ => .error "goloquent: primary key has invalid data type"

/-- Elementwise conversion of a key list, returning the first error. -/
def keyScalarsToString : List Val → Except String (List Val)
  | [] => .ok []
  | v :: vs =>
      match keyScalarToString v with
      | .error e => .error e
      | .ok w =>
          match keyScalarsToString vs with
          | .error e => .error e
          | .ok ws => .ok (w :: ws)

/-- The builder's `interfaceToKeyString`: lists convert elementwise, other
values via the scalar cases (the query API never nests lists further). -/
def interfaceToKeyString : Val → Except String Val
  | .vlist xs =>
      match keyScalarsToString xs with
      | .error e => .error e
      | .ok ws => .ok (.vlist ws)
  | v => keyScalarToString v

/-- Go's list-ification inside `buildWhere`: a `[]interface{}` value is used
as is, anything else becomes a one-element list (`x = append(x, v)` after a
failed type assertion). -/
def toListArg : Val → List Val
  | .vlist xs => xs
  | v => [v]

/-- The operator switch of the per-filter loop of `buildWhere`, applied to
the resolved column name and value. -/
def opClause (op : Operator) (name : String) (v : Val) :
    Except String (String × List Val) :=
  match op with
  | .Equal =>
      match v with
      | .vnull => .ok (name ++ " IS NULL", [])
      | _ => .ok (name ++ " = " ++ qMark, [v])
  | .EqualTo => .ok (name ++ " <=> " ++ qMark, [v])
  | .NotEqual =>
      match v with
      | .vnull => .ok (name ++ " IS NOT NULL", [])
      | _ => .ok (name ++ " <> " ++ qMark, [v])
  | .GreaterThan => .ok (name ++ " > " ++ qMark, [v])
  | .GreaterEqual => .ok (name ++ " >= " ++ qMark, [v])
  | .LessThan => .ok (name ++ " < " ++ qMark, [v])
  | .LessEqual => .ok (name ++ " <= " ++ qMark, [v])
  | .AnyLike =>
      let x := toListArg v
      if x.length ≤ 0 then .error "value for \"AnyLike\" operator cannot be empty"
      else
        .ok ("(" ++ String.intercalate " OR " (x.map (fun _ => name ++ " LIKE " ++ qMark)) ++ ")", x)
  | .Like => .ok (name ++ " LIKE " ++ qMark, [v])
  | .NotLike => .ok (name ++ " NOT LIKE " ++ qMark, [v])
  | .In =>
      let x := toListArg v
      if x.length ≤ 0 then .error "value for \"In\" operator cannot be empty"
      else
        .ok (name ++ " IN (" ++ String.intercalate "," (x.map (fun _ => qMark)) ++ ")", x)
  | .NotIn =>
      let x := toListArg v
      if x.length ≤ 0 then .error "value for \"NotIn\" operator cannot be empty"
      else
        .ok (name ++ " NOT IN (" ++ String.intercalate "," (x.map (fun _ => qMark)) ++ ")", x)

/-- Compilation of one filter into its WHERE fragment and arguments: the
body of the per-filter loop of `buildWhere` in `builder.go`.  A filter on
the logical key field or on the physical key column folds to the quoted
primary-key column with its value converted through the key codec
(`Filter.Interface` itself never fails on the value shapes modelled here,
so the value reaches the operator switch unchanged otherwise). -/
def filterClause (f : Filter) : Except String (String × List Val) :=
  if f.field = keyFieldName ∨ f.field = pkColumn then
    match interfaceToKeyString f.value with
    | .error e => .error e
    | .ok vk => opClause f.operator (Quote pkColumn) vk
  else
    opClause f.operator (Quote f.field) f.value

/-- Compilation of one ancestor constraint: the ancestor loop of
`buildWhere` (a group OR-joins one LIKE per member; a single ancestor emits
one LIKE; the pattern decorates the stringified key with percent signs and
the path delimiter). -/
def ancestorClause (aa : Ancestor) : String × List Val :=
  if aa.isGroup then
    ("(" ++
       String.intercalate " OR " (aa.data.map (fun _ => Quote pkColumn ++ " LIKE " ++ qMark)) ++
       ")",
     aa.data.map (fun k => Val.vstr ("%" ++ stringifyKey k ++ "/%")))
  else
    (Quote pkColumn ++ " LIKE " ++ qMark,
     [Val.vstr ("%" ++ stringifyKey (aa.data.headD { str := "", incomplete := true }) ++ "/%")])

/-- Clause compilation over the filter list, returning the first error, as
the Go loop does. -/
def filterClauses : List Filter → Except String (List (String × List Val))
  | [] => .ok []
  | f :: fs =>
      match filterClause f with
      | .error e => .error e
      | .ok c =>
          match filterClauses fs with
          | .error e => .error e
          | .ok cs => .ok (c :: cs)

/-- The builder's `buildWhere`: every filter clause then every ancestor
clause, AND-joined behind a leading ` WHERE `; an empty clause list resets
the buffer to the empty statement. -/
def buildWhere (query : scope) : Except String (String × List Val) :=
  match filterClauses query.filters with
  | .error e => .error e
  | .ok cs =>
      let acs := query.ancestors.map ancestorClause
      let wheres := cs.map (·.1) ++ acs.map (·.1)
      let args := (cs.map (·.2)).flatten ++ (acs.map (·.2)).flatten
      if wheres.length > 0 then
        .ok (" WHERE " ++ String.intercalate " AND " wheres, args)
      else
        .ok ("", args)

/-- The builder's `buildOrder`: quoted field (the logical key field folds to
the physical key column) with an ASC/DESC suffix, comma-joined behind a
leading ` ORDER BY `. -/
def buildOrder (query : scope) : String :=
  let arr := query.orders.map (fun o =>
    (if o.field = keyFieldName then Quote pkColumn else Quote o.field) ++
      (if o.direction = Direction.ascending then " ASC" else " DESC"))
  if arr.length > 0 then " ORDER BY " ++ String.intercalate "," arr else ""

/-- The builder's `buildLimitOffset`: each part rendered only when positive,
with its own leading space. -/
def buildLimitOffset (query : scope) : String :=
  (if query.limit > 0 then " LIMIT " ++ toString query.limit else "") ++
    (if query.offset > 0 then " OFFSET " ++ toString query.offset else "")

/-- The builder's `buildStmt`: WHERE fragment (text and arguments skipped
when the fragment compiled to the empty statement) followed by ORDER BY and
LIMIT/OFFSET. -/
def buildStmt (query : scope) : Except String (String × List Val) :=
  match buildWhere query with
  | .error e => .error e
  | .ok w =>
      let base := if w.1 = "" then ("", ([] : List Val)) else w
      .ok (base.1 ++ buildOrder query ++ buildLimitOffset query, base.2)

/-- The builder's `buildSelect`: projection list (quoted as necessary) or
star, overridden by a DISTINCT list when one is set. -/
def buildSelect (query : scope) : String :=
  let sel :=
    if query.projection.length > 0 then
      String.intercalate "," (query.projection.map quoteIfNecessary)
    else "*"
  let sel :=
    if query.distinctOn.length > 0 then
      "DISTINCT " ++ String.intercalate "," (query.distinctOn.map quoteIfNecessary)
    else sel
  "SELECT " ++ sel

/-- The lock switch at the end of `getStmt`. -/
def lockClause : LockMode → String
  | .ReadLock => " LOCK IN SHARE MODE"
  | .WriteLock => " FOR UPDATE"
  | .NoLock => ""

/-- The implicit live-rows filter `getStmt` appends: soft-delete column
equal to nil. -/
def softDeleteFilter : Filter :=
  { field := softDeleteColumn, operator := .Equal, value := .vnull }

/-- The scope `getStmt` actually compiles: when automatic scoping is not
disabled and the entity declares a soft-delete column, the soft-delete
filter is appended to the filter list. -/
def effQuery (e : entity) (query : scope) : scope :=
  if !query.noScope && e.hasSoftDelete then
    { query with filters := query.filters ++ [softDeleteFilter] }
  else query

/-- The builder's `getStmt`: SELECT fragment, FROM with the dialect table
name, the compiled WHERE/ORDER/LIMIT of the effective scope, the lock
clause, and the terminator. -/
def getStmt (e : entity) (query : scope) : Except String (String × List Val) :=
  match buildStmt (effQuery e query) with
  | .error err => .error err
  | .ok st =>
      .ok (buildSelect query ++ " FROM " ++ GetTable e.name ++ st.1 ++
             lockClause query.lockMode ++ ";",
           st.2)

/-- The per-key loop of the builder's `concatKeys`: renders each row key to
its argument, failing on the first incomplete key with the incomplete-key
error (the Go message also interpolates the entity type name, which the
model does not carry). -/
def concatKeysGo : List Key → Except String (List Val)
  | [] => .ok []
  | k :: ks =>
      if k.incomplete then .error "goloquent: entity has incomplete key"
      else
        match concatKeysGo ks with
        | .error e => .error e
        | .ok vs => .ok (Val.vstr (stringPk k) :: vs)

/-- The parenthesized placeholder list and key arguments produced by
`concatKeys`, assembled from the per-key loop above. -/
def concatKeys (ks : List Key) : Except String (String × List Val) :=
  match concatKeysGo ks with
  | .error e => .error e
  | .ok rendered =>
      .ok ("(" ++ String.intercalate "," (ks.map (fun _ => qMark)) ++ ")", rendered)

/-- The builder's `softDeleteStmt`: an UPDATE setting the soft-delete column
to the current UTC timestamp (passed in as `now`), keyed by `key IN` over
the rows' keys; the timestamp argument precedes the key arguments. -/
def softDeleteStmt (e : entity) (ks : List Key) (now : String) :
    Except String (String × List Val) :=
  match concatKeys ks with
  | .error err => .error err
  | .ok ck =>
      .ok ("UPDATE " ++ GetTable e.name ++ " SET " ++ Quote softDeleteColumn ++
             " = " ++ qMark ++ " WHERE " ++ Quote pkColumn ++ " IN " ++ ck.1 ++ ";",
           Val.vstr now :: ck.2)

/-- The builder's `deleteStmt`: soft delete rewrites to `softDeleteStmt`
when requested and supported by the entity, otherwise a literal DELETE over
the same key set. -/
def deleteStmt (e : entity) (ks : List Key) (now : String) (isSoftDelete : Bool) :
    Except String (String × List Val) :=
  if isSoftDelete && e.hasSoftDelete then
    softDeleteStmt e ks now
  else
    match concatKeys ks with
    | .error err => .error err
    | .ok ck =>
        .ok ("DELETE FROM " ++ GetTable e.name ++ " WHERE " ++ Quote pkColumn ++
               " IN " ++ ck.1 ++ ";",
             ck.2)

/-- One pass of the omission loop in the builder's `upsert`, written against
Go slice semantics.  The Go loop ranges over the original slice header
(length `n`, shared backing array `A`) while `cols = append(cols[:i],
cols[i+1:]...)` shifts the live prefix (`curLen`) in place: a removal at a
live index drops one element and leaves a stale duplicate beyond the live
length; a removal triggered at a stale index (`i ≥ curLen`) evaluates
`cols[i+1:]` with its low bound past the slice length, a runtime panic,
modelled as `Except.error`. -/
def upsertOmitGo (omits : List String) : Nat → Nat → List String → Nat →
    Except Unit (List String × Nat)
  | 0, _, A, curLen => .ok (A, curLen)
  | fuel + 1, i, A, curLen =>
      let c := A.getD i ""
      if c ∈ omits then
        if i < curLen then
          upsertOmitGo omits fuel (i + 1)
            (A.take i ++ (A.drop (i + 1)).take (curLen - 1 - i) ++ A.drop (curLen - 1))
            (curLen - 1)
        else .error ()
      else upsertOmitGo omits fuel (i + 1) A curLen

/-- The column list the builder's `upsert` hands to the dialect's
conflict-resolution clause: the entity's columns after the in-place
omission loop (the live prefix of the backing array). -/
def upsertConflictCols (cols : List String) (omits : List String) :
    Except Unit (List String) :=
  (upsertOmitGo omits cols.length 0 cols cols.length).map (fun r => r.1.take r.2)

/-- The conflict clause `upsert` appends before the terminator: present only
when the filtered column list is non-empty. -/
def upsertConflictClause (e : entity) (omits : List String) :
    Except Unit (Option String) :=
  (upsertConflictCols e.columns omits).map (fun cols =>
    if cols.length > 0 then some (OnConflictUpdate e.name cols) else none)

/-- Modelled from the spec: one column's resolved name, zero-value check and
runtime value (spec 3 `Property`; the reflection code is not under
`src/`). -/
structure Property where
  name : String
  isZero : Bool
  value : Val

/-- The include/skip loop of the builder's `updateWithStruct`: a property is
skipped when it is the logical key field, or when it is absent from the
projection list and its value is zero; the survivors keep their traversal
order. -/
def updateWithStructGo : List Property → List String → List (String × Val)
  | [], _ => []
  | p :: ps, proj =>
      if p.name = keyFieldName ∨ (p.name ∉ proj ∧ p.isZero) then
        updateWithStructGo ps proj
      else
        (p.name, p.value) :: updateWithStructGo ps proj

/-- The builder's `updateWithStruct`: the SET fragment built from the
surviving properties (the Go code writes `col = ?,` per survivor and
truncates the trailing comma, equal to an intercalation; with no survivor
the truncation of the empty buffer is a runtime panic, modelled as
`Except.error`). -/
def updateWithStruct (props : List Property) (projection : List String) :
    Except String (String × List Val) :=
  let entries := updateWithStructGo props projection
  if entries.length = 0 then
    .error "goloquent: bytes.Buffer: truncation out of range"
  else
    .ok (String.intercalate "," (entries.map (fun q => Quote q.1 ++ " = " ++ qMark)),
         entries.map (·.2))

/-- Transaction-side effects observed by the database: commit and rollback
calls issued against the begun transaction, in order. -/
inductive TxOp where
  | commit | rollback
deriving DecidableEq, Repr

/-- Behaviour of the transaction callback: it returns (an optional error) or
it panics with some value. -/
inductive CbOutcome where
  | ret (err : Option String)
  | panics (msg : String)
deriving DecidableEq, Repr

/-- How `runInTransaction` itself terminates: a normal return carrying an
optional error, or a propagating panic. -/
inductive GoOutcome where
  | ret (err : Option String)
  | panicked (msg : String)
deriving DecidableEq, Repr

/-- The observable run of `runInTransaction`: the ordered transaction
operations and the way the function terminates. -/
structure TxRun where
  ops : List TxOp
  outcome : GoOutcome
deriving DecidableEq, Repr

/-- The builder's `runInTransaction`, hand-compiled from Go defer/recover
semantics.  The function registers the recover closure first and
`tx.Rollback()` second, so on exit the rollback defer runs before the
recover closure.  Callback returns an error: the deferred rollback fires and
the error is returned.  Callback returns nil: `tx.Commit()` is evaluated as
the return value first, then the deferred rollback fires against the
committed transaction (a backend no-op).  Callback panics: the deferred
rollback fires, then the recover closure observes the panic value, registers
one more rollback, and by recovering makes the function return its zero
error value — the panic is swallowed and nil is returned, it does not
re-propagate.  A handle that cannot begin a transaction fails up front. -/
def runInTransaction (canBegin : Bool) (beginErr : Option String)
    (commitErr : Option String) (cb : CbOutcome) : TxRun :=
  if !canBegin then
    { ops := [], outcome := .ret (some "goloquent: unable to initiate transaction") }
  else
    match beginErr with
    | some e =>
        { ops := [], outcome := .ret (some ("goloquent: unable to begin transaction, " ++ e)) }
    | none =>
        match cb with
        | .ret (some e) => { ops := [.rollback], outcome := .ret (some e) }
        | .ret none => { ops := [.commit, .rollback], outcome := .ret commitErr }
        | .panics _ => { ops := [.rollback, .rollback], outcome := .ret none }

/-- The pagination request fields read by `paginate`. -/
structure Pagination where
  Cursor : String
  Limit : Nat

/-- The sentinel `ErrInvalidCursor` from `db.go`. -/
def errInvalidCursor : String := "goloquent: invalid cursor"

/-- The builder's `paginate` as it stands in `builder.go`: the entire body
(cursor decoding, the signature comparison against `sha1Sign`, statement
construction and row scanning) is commented out, so the function ignores its
arguments and unconditionally returns nil. -/
def paginate (_p : Pagination) : Option String := none

/-- The fragment order the specification prescribes for compiled SELECTs
(SELECT, FROM, WHERE, lock clause, ORDER BY, LIMIT/OFFSET, terminator),
stated as a second compilation function to compare with `getStmt`. -/
def getStmtSpecOrder (e : entity) (query : scope) : Except String String :=
  match buildWhere (effQuery e query) with
  | .error err => .error err
  | .ok w =>
      .ok (buildSelect query ++ " FROM " ++ GetTable e.name ++ w.1 ++
             lockClause query.lockMode ++ buildOrder query ++ buildLimitOffset query ++ ";")

/-- A scope with the given filters and every other field at its zero value,
used to state the WHERE-compilation claims. -/
def baseScope (fs : List Filter) : scope :=
  { table := "T", projection := [], distinctOn := [], omits := [], filters := fs,
    ancestors := [], orders := [], limit := 0, offset := 0,
    lockMode := .NoLock, noScope := false }

lemma intercalate_one (s a : String) : String.intercalate s [a] = a := rfl

lemma filterClause_plain (f : Filter) (h1 : f.field ≠ keyFieldName)
    (h2 : f.field ≠ pkColumn) :
    filterClause f = opClause f.operator (Quote f.field) f.value := by
  unfold filterClause
  rw [if_neg]
  simp [h1, h2]

lemma buildWhere_single (f : Filter) (s : String) (a : List Val)
    (h : filterClause f = .ok (s, a)) :
    buildWhere (baseScope [f]) = .ok (" WHERE " ++ s, a) := by
  simp [buildWhere, baseScope, filterClauses, h, intercalate_one]

lemma buildWhere_single_error (f : Filter) (msg : String)
    (h : filterClause f = .error msg) :
    buildWhere (baseScope [f]) = .error msg := by
  simp [buildWhere, baseScope, filterClauses, h]

lemma toListArg_scalar (v : Val) (hv : ∀ xs, v ≠ Val.vlist xs) :
    toListArg v = [v] := by
  cases v with
  | vlist xs => exact absurd rfl (hv xs)
  | vnull => rfl
  | vint n => rfl
  | vstr s => rfl
  | vkey k => rfl

/-- C1: the claim says `paginate` rejects a cursor whose signature was
computed over a different query shape with the invalid-cursor error.  In
`builder.go` the entire body of `paginate` — including the
`sha1Sign`-versus-cursor-signature comparison that would return
`ErrInvalidCursor` — is commented out, so the function returns nil for every
pagination request and never rejects any cursor. -/
theorem c1_paginate_never_rejects_cursor :
    ∀ p : Pagination, paginate p = none ∧ paginate p ≠ some errInvalidCursor := by
  intro p
  exact ⟨rfl, by simp [paginate]⟩

/-- C2 counterexample: a panicking transaction callback does not
re-propagate out of `runInTransaction`.  The deferred recover closure
swallows the panic, so the function returns normally with a nil error
(outcome `.ret none`), contradicting the claim that the panic re-propagates
to the caller; the rollback itself does happen. -/
theorem c2_panic_not_repropagated :
    (runInTransaction true none none (.panics "boom")).outcome = GoOutcome.ret none ∧
    (runInTransaction true none none (.panics "boom")).outcome ≠ GoOutcome.panicked "boom" ∧
    TxOp.rollback ∈ (runInTransaction true none none (.panics "boom")).ops := by
  refine ⟨rfl, by decide, by decide⟩

/-- C2 as amended: through `runInTransaction`, a callback error rolls the
transaction back and is returned; a callback panic rolls the transaction
back but is recovered and swallowed, so the function returns nil instead of
re-propagating the panic; the transaction is committed exactly when the
callback returns nil. -/
theorem c2_transaction_rollback_semantics :
    ∀ (ce : Option String) (e msg : String),
      (runInTransaction true none ce (.ret (some e))).ops = [TxOp.rollback] ∧
      (runInTransaction true none ce (.ret (some e))).outcome = GoOutcome.ret (some e) ∧
      (runInTransaction true none ce (.panics msg)).ops = [TxOp.rollback, TxOp.rollback] ∧
      (runInTransaction true none ce (.panics msg)).outcome = GoOutcome.ret none ∧
      (∀ cb : CbOutcome,
        TxOp.commit ∈ (runInTransaction true none ce cb).ops ↔ cb = CbOutcome.ret none) := by
  intro ce e msg
  refine ⟨rfl, rfl, rfl, rfl, ?_⟩
  intro cb
  cases cb with
  | ret err =>
      cases err with
      | none => simp [runInTransaction]
      | some e2 => simp [runInTransaction]
  | panics m => simp [runInTransaction]

/-- C9: an Equal filter on a nil value compiles to `field IS NULL` and a
NotEqual filter on a nil value to `field IS NOT NULL`, with no placeholder
and no argument (plain fields; key-typed fields fold to the primary-key
column first). -/
theorem c9_nil_equality_is_null (name : String)
    (h1 : name ≠ keyFieldName) (h2 : name ≠ pkColumn) :
    buildWhere (baseScope [⟨name, .Equal, .vnull⟩]) =
      .ok (" WHERE " ++ Quote name ++ " IS NULL", []) ∧
    buildWhere (baseScope [⟨name, .NotEqual, .vnull⟩]) =
      .ok (" WHERE " ++ Quote name ++ " IS NOT NULL", []) := by
  constructor
  · exact buildWhere_single _ _ _ ((filterClause_plain ⟨name, .Equal, .vnull⟩ h1 h2).trans rfl)
  · exact buildWhere_single _ _ _ ((filterClause_plain ⟨name, .NotEqual, .vnull⟩ h1 h2).trans rfl)

/-- C9 witness at a concrete field. -/
theorem c9_nil_equality_is_null_witness :
    buildWhere (baseScope [⟨"Deleted", .Equal, .vnull⟩]) =
      .ok (" WHERE " ++ Quote "Deleted" ++ " IS NULL", []) ∧
    buildWhere (baseScope [⟨"Deleted", .NotEqual, .vnull⟩]) =
      .ok (" WHERE " ++ Quote "Deleted" ++ " IS NOT NULL", []) :=
  c9_nil_equality_is_null "Deleted" (by decide) (by decide)

lemma opClause_in_list (name : String) (vals : List Val) (hv : vals ≠ []) :
    opClause .In name (.vlist vals) =
      .ok (name ++ " IN (" ++ String.intercalate "," (List.replicate vals.length qMark) ++ ")",
           vals) := by
  show (if vals.length ≤ 0 then _ else _) = _
  rw [if_neg (by simp [Nat.le_zero, List.length_eq_zero, hv])]
  simp [toListArg]

lemma opClause_notin_list (name : String) (vals : List Val) (hv : vals ≠ []) :
    opClause .NotIn name (.vlist vals) =
      .ok (name ++ " NOT IN (" ++ String.intercalate "," (List.replicate vals.length qMark) ++ ")",
           vals) := by
  show (if vals.length ≤ 0 then _ else _) = _
  rw [if_neg (by simp [Nat.le_zero, List.length_eq_zero, hv])]
  simp [toListArg]

/-- C8: an In/NotIn/AnyLike filter whose value is an empty list fails
WHERE-clause compilation with the usage error and produces no statement; a
non-empty list of n values renders a single parenthesized list of exactly n
placeholders with the n values appended in order, not n OR-joined equality
clauses. -/
theorem c8_empty_list_usage_error (name : String) (vals : List Val)
    (h1 : name ≠ keyFieldName) (h2 : name ≠ pkColumn) :
    (vals = [] →
      buildWhere (baseScope [⟨name, .In, .vlist vals⟩]) =
        .error "value for \"In\" operator cannot be empty" ∧
      buildWhere (baseScope [⟨name, .NotIn, .vlist vals⟩]) =
        .error "value for \"NotIn\" operator cannot be empty" ∧
      buildWhere (baseScope [⟨name, .AnyLike, .vlist vals⟩]) =
        .error "value for \"AnyLike\" operator cannot be empty") ∧
    (vals ≠ [] →
      buildWhere (baseScope [⟨name, .In, .vlist vals⟩]) =
        .ok (" WHERE " ++ Quote name ++ " IN (" ++
               String.intercalate "," (List.replicate vals.length qMark) ++ ")", vals) ∧
      buildWhere (baseScope [⟨name, .NotIn, .vlist vals⟩]) =
        .ok (" WHERE " ++ Quote name ++ " NOT IN (" ++
               String.intercalate "," (List.replicate vals.length qMark) ++ ")", vals)) := by
  constructor
  · intro hv
    subst hv
    refine ⟨?_, ?_, ?_⟩ <;>
      exact buildWhere_single_error _ _ ((filterClause_plain _ h1 h2).trans rfl)
  · intro hv
    constructor
    · rw [buildWhere_single _ _ _
        ((filterClause_plain ⟨name, .In, .vlist vals⟩ h1 h2).trans
          (opClause_in_list (Quote name) vals hv))]
      simp [String.append_assoc]
    · rw [buildWhere_single _ _ _
        ((filterClause_plain ⟨name, .NotIn, .vlist vals⟩ h1 h2).trans
          (opClause_notin_list (Quote name) vals hv))]
      simp [String.append_assoc]

/-- C8 witness at the spec's example: In over `[1,2,3]` renders three
placeholders and three ordered arguments, and the empty list errors. -/
theorem c8_empty_list_usage_error_witness :
    buildWhere (baseScope [⟨"Age", .In, .vlist [.vint 1, .vint 2, .vint 3]⟩]) =
      .ok (" WHERE " ++ Quote "Age" ++ " IN (" ++
             String.intercalate ","
               (List.replicate ([Val.vint 1, Val.vint 2, Val.vint 3].length) qMark) ++ ")",
           [Val.vint 1, Val.vint 2, Val.vint 3]) ∧
    buildWhere (baseScope [⟨"Age", .In, .vlist []⟩]) =
      .error "value for \"In\" operator cannot be empty" :=
  ⟨((c8_empty_list_usage_error "Age" [.vint 1, .vint 2, .vint 3]
      (by decide) (by decide)).2 (List.cons_ne_nil _ _)).1,
   ((c8_empty_list_usage_error "Age" [] (by decide) (by decide)).1 rfl).1⟩

/-- C10: an In/NotIn/AnyLike filter whose value is a scalar (not a list)
does not fail: the scalar is treated as a one-element list, rendering a
single placeholder (In/NotIn) or a single LIKE predicate (AnyLike) with
that one value as the argument. -/
theorem c10_scalar_treated_as_singleton (name : String) (v : Val)
    (h1 : name ≠ keyFieldName) (h2 : name ≠ pkColumn)
    (hv : ∀ xs, v ≠ Val.vlist xs) :
    buildWhere (baseScope [⟨name, .In, v⟩]) =
      .ok (" WHERE " ++ Quote name ++ " IN (?)", [v]) ∧
    buildWhere (baseScope [⟨name, .NotIn, v⟩]) =
      .ok (" WHERE " ++ Quote name ++ " NOT IN (?)", [v]) ∧
    buildWhere (baseScope [⟨name, .AnyLike, v⟩]) =
      .ok (" WHERE (" ++ Quote name ++ " LIKE ?)", [v]) := by
  have hx : toListArg v = [v] := toListArg_scalar v hv
  refine ⟨?_, ?_, ?_⟩
  · have hc : filterClause ⟨name, .In, v⟩ =
        .ok (Quote name ++ " IN (" ++ "?" ++ ")", [v]) := by
      rw [filterClause_plain ⟨name, .In, v⟩ h1 h2]
      show (if (toListArg v).length ≤ 0 then _ else _) = _
      rw [hx]
      simp [intercalate_one, qMark]
    rw [buildWhere_single _ _ _ hc]
    simp only [String.append_assoc]
    rfl
  · have hc : filterClause ⟨name, .NotIn, v⟩ =
        .ok (Quote name ++ " NOT IN (" ++ "?" ++ ")", [v]) := by
      rw [filterClause_plain ⟨name, .NotIn, v⟩ h1 h2]
      show (if (toListArg v).length ≤ 0 then _ else _) = _
      rw [hx]
      simp [intercalate_one, qMark]
    rw [buildWhere_single _ _ _ hc]
    simp only [String.append_assoc]
    rfl
  · have hc : filterClause ⟨name, .AnyLike, v⟩ =
        .ok ("(" ++ (Quote name ++ " LIKE " ++ "?") ++ ")", [v]) := by
      rw [filterClause_plain ⟨name, .AnyLike, v⟩ h1 h2]
      show (if (toListArg v).length ≤ 0 then _ else _) = _
      rw [hx]
      simp [intercalate_one, qMark]
    rw [buildWhere_single _ _ _ hc]
    simp only [String.append_assoc]
    rfl

/-- C10 witness at a concrete scalar filter. -/
theorem c10_scalar_treated_as_singleton_witness :
    buildWhere (baseScope [⟨"Name", .In, .vstr "john"⟩]) =
      .ok (" WHERE " ++ Quote "Name" ++ " IN (?)", [Val.vstr "john"]) ∧
    buildWhere (baseScope [⟨"Name", .NotIn, .vstr "john"⟩]) =
      .ok (" WHERE " ++ Quote "Name" ++ " NOT IN (?)", [Val.vstr "john"]) ∧
    buildWhere (baseScope [⟨"Name", .AnyLike, .vstr "john"⟩]) =
      .ok (" WHERE (" ++ Quote "Name" ++ " LIKE ?)", [Val.vstr "john"]) :=
  c10_scalar_treated_as_singleton "Name" (.vstr "john") (by decide) (by decide)
    (fun xs h => Val.noConfusion h)

/-- C4: the implicit soft-delete filter is appended to the WHERE clause of a
compiled SELECT exactly when the target entity declares a soft-delete column
and the scope has not disabled automatic scoping (stated for scopes with no
explicit filters or ancestors, so the WHERE clause consists of the automatic
filter alone when present and is absent otherwise). -/
theorem c4_soft_delete_auto_filter (e : entity) (s : scope)
    (hf : s.filters = []) (ha : s.ancestors = []) :
    getStmt e s =
      .ok (buildSelect s ++ " FROM " ++ GetTable e.name ++
             (if !s.noScope && e.hasSoftDelete then " WHERE `$Deleted` IS NULL" else "") ++
             buildOrder s ++ buildLimitOffset s ++ lockClause s.lockMode ++ ";",
           []) := by
  cases hc : !s.noScope && e.hasSoftDelete with
  | false =>
      have he : effQuery e s = s := by simp [effQuery, hc]
      have hw : buildWhere s = .ok ("", []) := by
        simp [buildWhere, hf, ha, filterClauses]
      simp [getStmt, buildStmt, he, hw, hc, String.append_assoc]
  | true =>
      have he : effQuery e s = { s with filters := [softDeleteFilter] } := by
        simp [effQuery, hc, hf]
      have hfc : filterClause softDeleteFilter = .ok ("`$Deleted` IS NULL", []) := rfl
      have hw : buildWhere { s with filters := [softDeleteFilter] } =
          .ok (" WHERE `$Deleted` IS NULL", []) := by
        simp [buildWhere, filterClauses, hfc, ha, intercalate_one]
      simp [getStmt, buildStmt, he, hw, hc, String.append_assoc]
      rfl

/-- C4 witness: a soft-delete-enabled entity gets the automatic filter, and
the same entity with scoping disabled does not. -/
theorem c4_soft_delete_auto_filter_witness :
    getStmt ⟨"User", true, []⟩ (baseScope []) =
      .ok (buildSelect (baseScope []) ++ " FROM " ++ GetTable "User" ++
             " WHERE `$Deleted` IS NULL" ++ buildOrder (baseScope []) ++
             buildLimitOffset (baseScope []) ++ lockClause (baseScope []).lockMode ++ ";",
           []) :=
  c4_soft_delete_auto_filter ⟨"User", true, []⟩ (baseScope []) rfl rfl

lemma concatKeysGo_complete (ks : List Key) (h : ∀ k ∈ ks, k.incomplete = false) :
    concatKeysGo ks = .ok (ks.map fun k => Val.vstr (stringPk k)) := by
  induction ks with
  | nil => rfl
  | cons k ks ih =>
      have hk := h k (List.mem_cons_self k ks)
      simp [concatKeysGo, hk, ih (fun x hx => h x (List.mem_cons_of_mem _ hx))]

lemma concatKeysGo_incomplete (ks : List Key) (h : ∃ k ∈ ks, k.incomplete = true) :
    concatKeysGo ks = .error "goloquent: entity has incomplete key" := by
  induction ks with
  | nil => simp at h
  | cons k ks ih =>
      by_cases hk : k.incomplete = true
      · simp [concatKeysGo, hk]
      · obtain ⟨x, hx, hinc⟩ := h
        rcases List.mem_cons.mp hx with heq | hx2
        · exact absurd (heq ▸ hinc) hk
        · simp [concatKeysGo, hk, ih ⟨x, hx2, hinc⟩]

/-- C7: a row-set delete on a soft-delete-enabled entity with complete keys
compiles to an UPDATE that sets the soft-delete column to the current
timestamp, with a `key IN` predicate of one placeholder per given key and
the argument order timestamp first then the keys in order — never a literal
DELETE; any incomplete key aborts compilation with the incomplete-key
error. -/
theorem c7_soft_delete_rowset_delete (e : entity) (ks : List Key) (now : String)
    (hsd : e.hasSoftDelete = true) :
    ((∀ k ∈ ks, k.incomplete = false) →
      deleteStmt e ks now true =
        .ok ("UPDATE " ++ GetTable e.name ++ " SET " ++ Quote softDeleteColumn ++
               " = ? WHERE " ++ Quote pkColumn ++ " IN (" ++
               String.intercalate "," (List.replicate ks.length qMark) ++ ");",
             Val.vstr now :: ks.map (fun k => Val.vstr (stringPk k)))) ∧
    ((∃ k ∈ ks, k.incomplete = true) →
      deleteStmt e ks now true = .error "goloquent: entity has incomplete key") := by
  constructor
  · intro h
    have hg := concatKeysGo_complete ks h
    simp only [deleteStmt, hsd, Bool.and_self, if_true, softDeleteStmt, concatKeys, hg]
    simp only [List.map_const', String.append_assoc]
    rfl
  · intro h
    have hg := concatKeysGo_incomplete ks h
    simp [deleteStmt, hsd, softDeleteStmt, concatKeys, hg]

/-- C7 witness: two complete keys produce the two-placeholder UPDATE with
arguments timestamp first, and an incomplete key produces the error. -/
theorem c7_soft_delete_rowset_delete_witness :
    deleteStmt ⟨"User", true, []⟩ [⟨"User/1", false⟩, ⟨"User/2", false⟩] "2026-01-01 00:00:00" true =
      .ok ("UPDATE " ++ GetTable "User" ++ " SET " ++ Quote softDeleteColumn ++
             " = ? WHERE " ++ Quote pkColumn ++ " IN (" ++
             String.intercalate "," (List.replicate 2 qMark) ++ ");",
           [Val.vstr "2026-01-01 00:00:00", Val.vstr "User/1", Val.vstr "User/2"]) ∧
    deleteStmt ⟨"User", true, []⟩ [⟨"User/3", true⟩] "2026-01-01 00:00:00" true =
      .error "goloquent: entity has incomplete key" :=
  ⟨(c7_soft_delete_rowset_delete ⟨"User", true, []⟩
      [⟨"User/1", false⟩, ⟨"User/2", false⟩] "2026-01-01 00:00:00" rfl).1 (by decide),
   (c7_soft_delete_rowset_delete ⟨"User", true, []⟩
      [⟨"User/3", true⟩] "2026-01-01 00:00:00" rfl).2
     ⟨⟨"User/3", true⟩, List.mem_cons_self _ _, rfl⟩⟩

lemma updateWithStructGo_mem (props : List Property) (proj : List String) (name : String) :
    (∃ v, (name, v) ∈ updateWithStructGo props proj) ↔
    ∃ p ∈ props, p.name = name ∧ name ≠ keyFieldName ∧ (name ∈ proj ∨ p.isZero = false) := by
  induction props with
  | nil => simp [updateWithStructGo]
  | cons p ps ih =>
      by_cases hskip : p.name = keyFieldName ∨ (p.name ∉ proj ∧ p.isZero)
      · rw [show updateWithStructGo (p :: ps) proj = updateWithStructGo ps proj from
          by simp [updateWithStructGo, hskip]]
        rw [ih]
        constructor
        · rintro ⟨q, hq, hrest⟩
          exact ⟨q, List.mem_cons_of_mem _ hq, hrest⟩
        · rintro ⟨q, hq, h1, h2, h3⟩
          rcases List.mem_cons.mp hq with heq | hq2
          · subst heq
            exfalso
            rcases hskip with hk | ⟨hnp, hz⟩
            · exact h2 (h1 ▸ hk)
            · rcases h3 with hin | hnz
              · exact hnp (h1 ▸ hin)
              · rw [hnz] at hz
                exact Bool.noConfusion hz
          · exact ⟨q, hq2, h1, h2, h3⟩
      · have hn1 : p.name ≠ keyFieldName := fun hcon => hskip (Or.inl hcon)
        have hn2 : p.name ∈ proj ∨ p.isZero = false := by
          rcases not_and_or.mp (fun hcon => hskip (Or.inr hcon)) with hcon | hcon
          · exact Or.inl (not_not.mp hcon)
          · exact Or.inr (Bool.not_eq_true _ ▸ hcon)
        rw [show updateWithStructGo (p :: ps) proj =
            (p.name, p.value) :: updateWithStructGo ps proj from
          by simp [updateWithStructGo, hskip]]
        constructor
        · rintro ⟨v, hv⟩
          rcases List.mem_cons.mp hv with heq | hm
          · have h1 : name = p.name := congrArg Prod.fst heq
            exact ⟨p, List.mem_cons_self _ _, h1.symm, h1 ▸ hn1, h1 ▸ hn2⟩
          · obtain ⟨q, hq, hrest⟩ := ih.mp ⟨v, hm⟩
            exact ⟨q, List.mem_cons_of_mem _ hq, hrest⟩
        · rintro ⟨q, hq, h1, h2, h3⟩
          rcases List.mem_cons.mp hq with heq | hq2
          · subst heq
            exact ⟨q.value, h1 ▸ List.mem_cons_self _ _⟩
          · obtain ⟨v, hm⟩ := ih.mpr ⟨q, hq2, h1, h2, h3⟩
            exact ⟨v, List.mem_cons_of_mem _ hm⟩

/-- C5: in a struct-sourced bulk update, a field appears in the generated
SET clause iff it is not the logical primary-key field and either it is
named in the projection list or its runtime value is non-zero; the SET
fragment and argument list are built from exactly the surviving fields in
order. -/
theorem c5_struct_update_sparse_rule (props : List Property) (proj : List String) :
    (∀ name : String,
      (∃ v, (name, v) ∈ updateWithStructGo props proj) ↔
      ∃ p ∈ props, p.name = name ∧ name ≠ keyFieldName ∧ (name ∈ proj ∨ p.isZero = false)) ∧
    (updateWithStructGo props proj ≠ [] →
      updateWithStruct props proj =
        .ok (String.intercalate ","
               ((updateWithStructGo props proj).map (fun q => Quote q.1 ++ " = " ++ qMark)),
             (updateWithStructGo props proj).map (·.2))) := by
  refine ⟨fun name => updateWithStructGo_mem props proj name, ?_⟩
  intro h
  rw [updateWithStruct, if_neg]
  simpa [List.length_eq_zero] using h

/-- C5 witness: a zero-valued non-projected field is excluded from the SET
clause while a non-zero field is included, and the fragment lists exactly
the survivor. -/
theorem c5_struct_update_sparse_rule_witness :
    (∃ v, ("b", v) ∈
      updateWithStructGo [⟨"a", true, .vint 0⟩, ⟨"b", false, .vint 5⟩] []) ∧
    ¬(∃ v, ("a", v) ∈
      updateWithStructGo [⟨"a", true, .vint 0⟩, ⟨"b", false, .vint 5⟩] []) ∧
    updateWithStruct [⟨"a", true, .vint 0⟩, ⟨"b", false, .vint 5⟩] [] =
      .ok (String.intercalate ","
             ((updateWithStructGo [⟨"a", true, .vint 0⟩, ⟨"b", false, .vint 5⟩] []).map
               (fun q => Quote q.1 ++ " = " ++ qMark)),
           (updateWithStructGo [⟨"a", true, .vint 0⟩, ⟨"b", false, .vint 5⟩] []).map (·.2)) := by
  refine ⟨?_, ?_, ?_⟩
  · exact (c5_struct_update_sparse_rule _ _).1 "b" |>.mpr
      ⟨⟨"b", false, .vint 5⟩,
       List.mem_cons_of_mem _ (List.mem_cons_self _ _), rfl, by decide, Or.inr rfl⟩
  · intro hcon
    obtain ⟨p, hp, h1, h2, h3⟩ := ((c5_struct_update_sparse_rule _ _).1 "a").mp hcon
    rcases List.mem_cons.mp hp with heq | hp2
    · subst heq
      rcases h3 with hin | hnz
      · exact List.not_mem_nil _ hin
      · exact Bool.noConfusion hnz
    · rcases List.mem_cons.mp hp2 with heq | hp3
      · subst heq
        exact absurd h1 (by decide)
      · exact List.not_mem_nil _ hp3
  · exact (c5_struct_update_sparse_rule _ _).2
      (by rw [show updateWithStructGo [⟨"a", true, Val.vint 0⟩, ⟨"b", false, Val.vint 5⟩] [] =
            [("b", Val.vint 5)] from rfl]
          exact List.cons_ne_nil _ _)

lemma upsertOmitGo_subset (omits : List String) :
    ∀ (fuel i curLen : Nat) (A : List String) (r : List String × Nat),
      upsertOmitGo omits fuel i A curLen = .ok r → ∀ x ∈ r.1, x ∈ A := by
  intro fuel
  induction fuel with
  | zero =>
      intro i curLen A r h x hx
      injection h with h1
      rw [← h1] at hx
      exact hx
  | succ n ih =>
      intro i curLen A r h x hx
      rw [upsertOmitGo] at h
      by_cases hc : (A.getD i "") ∈ omits
      · rw [if_pos hc] at h
        by_cases hlt : i < curLen
        · rw [if_pos hlt] at h
          have hmem := ih (i + 1) (curLen - 1) _ r h x hx
          rcases List.mem_append.mp hmem with hm | hm
          · rcases List.mem_append.mp hm with hm2 | hm2
            · exact List.take_subset _ _ hm2
            · exact List.drop_subset _ _ (List.take_subset _ _ hm2)
          · exact List.drop_subset _ _ hm
        · rw [if_neg hlt] at h
          cases h
      · rw [if_neg hc] at h
        exact ih (i + 1) curLen A r h x hx

lemma upsertOmitGo_nil_omits :
    ∀ (fuel i curLen : Nat) (A : List String),
      upsertOmitGo [] fuel i A curLen = .ok (A, curLen) := by
  intro fuel
  induction fuel with
  | zero => intro i curLen A; rfl
  | succ n ih => intro i curLen A; rw [upsertOmitGo]; simp [ih]

/-- C3 counterexample: with entity columns `[a, b, c]` and omission list
`[a, b]`, the in-place omission loop of `upsert` removes `a`, shifts `b`
into the already-visited slot 0 and never revisits it, so the omitted
column `b` survives into the conflict-resolution clause. -/
theorem c3_omitted_column_survives :
    upsertConflictCols ["a", "b", "c"] ["a", "b"] = .ok ["b", "c"] ∧
    "b" ∈ (["a", "b"] : List String) ∧
    OnConflictUpdate "T" ["b", "c"] =
      "ON DUPLICATE KEY UPDATE `b`=VALUES(`b`),`c`=VALUES(`c`)" :=
  ⟨rfl, by decide, rfl⟩

/-- C3 as amended: the conflict-resolution clause of an upsert never
contains the primary-key column (the entity's column list excludes it and
the omission loop only ever keeps columns that were already in the list),
even when the omission list is empty — in which case the clause columns are
exactly the entity's columns.  The stronger part of the original claim, that
no omitted column ever appears, is false (see the counterexample). -/
theorem c3_conflict_clause_pk_free (cols omits : List String)
    (h : pkColumn ∉ cols) :
    upsertConflictCols cols [] = .ok cols ∧
    ∀ r, upsertConflictCols cols omits = .ok r → pkColumn ∉ r := by
  constructor
  · simp [upsertConflictCols, upsertOmitGo_nil_omits, Except.map]
  · intro r hr hmem
    rw [upsertConflictCols] at hr
    cases hg : upsertOmitGo omits cols.length 0 cols cols.length with
    | error e => rw [hg] at hr; cases hr
    | ok pr =>
        rw [hg] at hr
        injection hr with h1
        rw [← h1] at hmem
        exact h (upsertOmitGo_subset omits cols.length 0 cols.length cols pr hg
          pkColumn (List.take_subset _ _ hmem))

/-- C3 witness: a pk-free column list keeps its columns under the empty
omission list, and no successful filtering introduces the primary-key
column. -/
theorem c3_conflict_clause_pk_free_witness :
    upsertConflictCols ["a", "b"] [] = .ok ["a", "b"] ∧
    ∀ r, upsertConflictCols ["a", "b"] ["x"] = .ok r → pkColumn ∉ r :=
  c3_conflict_clause_pk_free ["a", "b"] ["x"] (by decide)

lemma buildWhere_shape (q : scope) (w : String × List Val)
    (h : buildWhere q = .ok w) :
    (w.1 = "" ∧ w.2 = []) ∨ ∃ rest, w.1 = " WHERE " ++ rest := by
  simp only [buildWhere] at h
  cases hfc : filterClauses q.filters with
  | error e => rw [hfc] at h; cases h
  | ok cs =>
      rw [hfc] at h
      simp only [] at h
      split at h
      · injection h with h1
        right
        exact ⟨_, by rw [← h1]⟩
      · injection h with h1
        left
        next hl =>
          have hlen := Nat.eq_zero_of_not_pos hl
          rw [List.length_append] at hlen
          have hcs : cs = [] := by
            have : (cs.map (·.1)).length = 0 := by omega
            simpa using this
          have hacs : q.ancestors.map ancestorClause = [] := by
            have : ((q.ancestors.map ancestorClause).map (·.1)).length = 0 := by omega
            simpa using this
          rw [← h1]
          exact ⟨rfl, by simp [hcs, hacs]⟩

lemma buildWhere_empty_args (q : scope) (w : String × List Val)
    (h : buildWhere q = .ok w) (he : w.1 = "") : w.2 = [] := by
  rcases buildWhere_shape q w h with ⟨_, h2⟩ | ⟨rest, hr⟩
  · exact h2
  · exfalso
    rw [he] at hr
    have hlen := congrArg String.length hr
    rw [String.length_append] at hlen
    have h7 : (" WHERE " : String).length = 7 := rfl
    have h0 : ("" : String).length = 0 := rfl
    rw [h7, h0] at hlen
    omega

lemma effQuery_buildOrder (e : entity) (s : scope) :
    buildOrder (effQuery e s) = buildOrder s := by
  rw [effQuery]; split <;> rfl

lemma effQuery_buildLimitOffset (e : entity) (s : scope) :
    buildLimitOffset (effQuery e s) = buildLimitOffset s := by
  rw [effQuery]; split <;> rfl

/-- C6 counterexample: for a locked select with an ORDER BY, `getStmt`
appends the lock clause after the ORDER BY and LIMIT fragments, while the
claim places the lock clause between WHERE and ORDER BY; the compiled text
differs from the claim's composition at this concrete scope. -/
theorem c6_lock_clause_placement :
    getStmt ⟨"User", false, []⟩
        { baseScope [] with orders := [⟨"Name", .ascending⟩], lockMode := .WriteLock } =
      .ok ("SELECT * FROM `User` ORDER BY `Name` ASC FOR UPDATE;", []) ∧
    getStmtSpecOrder ⟨"User", false, []⟩
        { baseScope [] with orders := [⟨"Name", .ascending⟩], lockMode := .WriteLock } =
      .ok "SELECT * FROM `User` FOR UPDATE ORDER BY `Name` ASC;" ∧
    ("SELECT * FROM `User` ORDER BY `Name` ASC FOR UPDATE;" : String) ≠
      "SELECT * FROM `User` FOR UPDATE ORDER BY `Name` ASC;" :=
  ⟨rfl, rfl, by decide⟩

/-- C6 as amended: compiled SELECT fragments appear in the fixed order
SELECT, FROM, WHERE, ORDER BY, LIMIT/OFFSET, lock clause, terminator (the
lock clause comes after ORDER BY and LIMIT, not before them), and every
fragment is either absent or carries its own leading separator, so omitted
fragments leave no dangling whitespace or trailing operator. -/
theorem c6_fragment_order :
    (∀ (e : entity) (s : scope) (w : String × List Val),
        buildWhere (effQuery e s) = .ok w →
        getStmt e s =
          .ok (buildSelect s ++ " FROM " ++ GetTable e.name ++ w.1 ++
                 buildOrder s ++ buildLimitOffset s ++ lockClause s.lockMode ++ ";",
               w.2)) ∧
    (∀ (q : scope) (w : String × List Val),
        buildWhere q = .ok w → (w.1 = "" ∧ w.2 = []) ∨ ∃ rest, w.1 = " WHERE " ++ rest) ∧
    (∀ q : scope, q.orders = [] → buildOrder q = "") ∧
    (∀ q : scope, q.orders ≠ [] → ∃ rest, buildOrder q = " ORDER BY " ++ rest) ∧
    (∀ q : scope, q.limit ≤ 0 → q.offset ≤ 0 → buildLimitOffset q = "") ∧
    lockClause LockMode.NoLock = "" := by
  refine ⟨?_, buildWhere_shape, ?_, ?_, ?_, rfl⟩
  · intro e s w h
    by_cases hb : w.1 = ""
    · have ha := buildWhere_empty_args _ _ h hb
      simp [getStmt, buildStmt, h, hb, ha, effQuery_buildOrder, effQuery_buildLimitOffset,
        String.append_assoc]
    · simp [getStmt, buildStmt, h, hb, effQuery_buildOrder, effQuery_buildLimitOffset,
        String.append_assoc]
  · intro q h
    simp [buildOrder, h]
  · intro q h
    rw [buildOrder]
    rw [if_pos (by simpa [List.length_pos] using h)]
    exact ⟨_, rfl⟩
  · intro q h1 h2
    rw [buildLimitOffset, if_neg (not_lt.mpr h1), if_neg (not_lt.mpr h2)]
    rfl

/-- C6 witness: the amended composition applied to a concrete scope with
every optional fragment absent. -/
theorem c6_fragment_order_witness :
    getStmt ⟨"User", false, []⟩ (baseScope []) =
      .ok (buildSelect (baseScope []) ++ " FROM " ++ GetTable "User" ++ "" ++
             buildOrder (baseScope []) ++ buildLimitOffset (baseScope []) ++
             lockClause (baseScope []).lockMode ++ ";",
           ([] : List Val)) :=
  c6_fragment_order.1 ⟨"User", false, []⟩ (baseScope []) ("", []) rfl

end Goloquent
